import Mathlib

/-!
Shallow embedding of the `css_colors` crate (src/lib.rs): two value types
`RGB` and `RGBA`, conversions between them, and CSS text rendering.

Rust's `u8` is modelled as `Fin 256`.  Rust's `f32` is modelled bit-exactly
as a 32-bit pattern (`F32`), with IEEE 754 equality (the `PartialEq` that
`derive(PartialEq)` uses on the `a : f32` field) and the standard-library
`Display` formatting modelled from the spec as the shortest round-trip
decimal form.
-/

/-- Model of Rust `u8`: an unsigned 8-bit integer. -/
abbrev U8 := Fin 256

/-- Model of Rust `f32`: a 32-bit IEEE 754 binary32 bit pattern. -/
structure F32 where
  bits : Fin 4294967296
deriving DecidableEq

/-- Sign bit of an `f32` bit pattern. -/
def F32.sign (x : F32) : Bool := decide (2147483648 ≤ x.bits.val)

/-- Biased exponent field (8 bits) of an `f32` bit pattern. -/
def F32.expo (x : F32) : Nat := x.bits.val / 8388608 % 256

/-- Mantissa field (23 bits) of an `f32` bit pattern. -/
def F32.mant (x : F32) : Nat := x.bits.val % 8388608

/-- An `f32` is NaN when its exponent field is all ones and its mantissa is nonzero. -/
def F32.isNaN (x : F32) : Bool := decide (x.expo = 255) && decide (x.mant ≠ 0)

/-- An `f32` is an infinity when its exponent field is all ones and its mantissa is zero. -/
def F32.isInf (x : F32) : Bool := decide (x.expo = 255) && decide (x.mant = 0)

/-- An `f32` is (positive or negative) zero when exponent and mantissa are both zero. -/
def F32.isZero (x : F32) : Bool := decide (x.expo = 0) && decide (x.mant = 0)

/-- Rust `f32` equality (`PartialEq::eq`), i.e. IEEE 754 equality: NaN compares
unequal to everything (itself included), `+0.0 == -0.0`, and otherwise two
values are equal exactly when their bit patterns coincide. -/
def F32.beq (x y : F32) : Bool :=
  if x.isNaN || y.isNaN then false
  else if x.isZero && y.isZero then true
  else decide (x.bits = y.bits)

/-- The `f32` literal `1.0` (bit pattern 0x3F800000). -/
def f32One : F32 := ⟨⟨1065353216, by decide⟩⟩

/-- The `f32` literal `0.5` (bit pattern 0x3F000000). -/
def f32Half : F32 := ⟨⟨1056964608, by decide⟩⟩

/-- The `f32` literal `0.75` (bit pattern 0x3F400000). -/
def f32ThreeQuarters : F32 := ⟨⟨1061158912, by decide⟩⟩

/-- A quiet NaN `f32` bit pattern (0x7FC00000), as produced by `f32::NAN`. -/
def f32NaN : F32 := ⟨⟨2143289344, by decide⟩⟩

/-- Numerator of the magnitude of a finite `f32`: the magnitude of the value
is `magNum x / 2 ^ 149` (subnormals: `mant * 2 ^ (-149)`; normals:
`(2 ^ 23 + mant) * 2 ^ (expo - 150)`). -/
def F32.magNum (x : F32) : Nat :=
  if x.expo = 0 then x.mant else (8388608 + x.mant) * 2 ^ (x.expo - 1)

/-- Round the rational `a / b` (with `b > 0`) to the nearest natural number,
ties going to the even neighbour (IEEE round-to-nearest-even). -/
def roundHalfEven (a b : Nat) : Nat :=
  let d := a / b
  let r := a % b
  if 2 * r < b then d
  else if b < 2 * r then d + 1
  else if d % 2 = 0 then d else d + 1

/-- Smallest `k` (up to the fuel bound, first argument) with
`p * base ^ k ≥ q`; used to compute `-⌊log (p / q)⌋` for `p < q`. -/
def shiftToReach (base : Nat) : Nat → Nat → Nat → Nat
  | 0, _, _ => 0
  | f + 1, p, q => if q ≤ p then 0 else shiftToReach base f (base * p) q + 1

/-- Largest `e` (up to the fuel bound, first argument) with
`q * base ^ e ≤ p`; this is `⌊log (p / q)⌋` when `q ≤ p`. -/
def floorShift (base : Nat) : Nat → Nat → Nat → Nat
  | 0, _, _ => 0
  | f + 1, p, q => if q * base ≤ p then floorShift base f p (q * base) + 1 else 0

/-- Round the nonnegative rational `p / q` (with `q > 0`) to the nearest
`f32` magnitude, round-to-nearest-even, returning the low 31 bits of the
resulting pattern (biased exponent and mantissa, no sign); overflow
saturates to the infinity pattern. -/
def parseMag (p q : Nat) : Nat :=
  if p = 0 then 0
  else
    let e : Int := if q ≤ p then (floorShift 2 400 p q : Nat) else -(shiftToReach 2 400 p q : Nat)
    let g : Int := max (-149) (e - 23)
    let m0 : Nat :=
      if 0 ≤ g then roundHalfEven p (q * 2 ^ g.toNat)
      else roundHalfEven (p * 2 ^ (-g).toNat) q
    let m : Nat := if m0 = 16777216 then 8388608 else m0
    let g2 : Int := if m0 = 16777216 then g + 1 else g
    if m < 8388608 then m
    else if 105 ≤ g2 then 2139095040
    else (g2 + 150).toNat * 8388608 + (m - 8388608)

/-- Does the decimal `D * 10 ^ e10` parse (round-to-nearest-even) back to the
finite `f32` magnitude whose low 31 bits are `bits31`? -/
def decCandidateOk (bits31 D : Nat) (e10 : Int) : Bool :=
  if 0 ≤ e10 then decide (parseMag (D * 10 ^ e10.toNat) 1 = bits31)
  else decide (parseMag D (10 ^ (-e10).toNat) = bits31)

/-- Search, from significand length `s` upwards, for the shortest decimal
`D * 10 ^ e10` that rounds back to the finite nonzero `f32` magnitude with
low bits `bits31` and value `N / 2 ^ 149`; `t = ⌊log10 (N / 2 ^ 149)⌋`.
The fuel-exhaustion fallback is the exact decimal expansion. -/
def shortestFrom (bits31 N : Nat) (t : Int) : Nat → Nat → Nat × Int
  | 0, _ => (N * 5 ^ 149, -149)
  | f + 1, s =>
    let e10 : Int := t - s + 1
    let D0 : Nat :=
      if e10 ≤ 0 then roundHalfEven (N * 10 ^ (-e10).toNat) (2 ^ 149)
      else roundHalfEven N (2 ^ 149 * 10 ^ e10.toNat)
    if decCandidateOk bits31 D0 e10 then (D0, e10)
    else if decCandidateOk bits31 (D0 + 1) e10 then (D0 + 1, e10)
    else if decide (1 ≤ D0) && decCandidateOk bits31 (D0 - 1) e10 then (D0 - 1, e10)
    else shortestFrom bits31 N t f (s + 1)

/-- Render the decimal `D * 10 ^ e10` in positional notation the way Rust's
`Display` does: no exponent notation, no trailing `.0` on integers. -/
def renderDigits (D : Nat) (e10 : Int) : String :=
  let ds := (Nat.repr D).data
  if 0 ≤ e10 then String.mk (ds ++ List.replicate e10.toNat '0')
  else
    let k := (-e10).toNat
    let len := ds.length
    if k < len then String.mk (ds.take (len - k) ++ '.' :: ds.drop (len - k))
    else String.mk ('0' :: '.' :: List.replicate (k - len) '0' ++ ds)

/-- Modelled from the spec: the Rust standard library `Display` formatting of
`f32` (used by `write!("{}")` on the alpha channel) is not part of this
repository; per the spec it is the minimal decimal form, "the shortest text
representation of a floating-point value that round-trips to the same value,
omitting unnecessary trailing zeros" (`1.0` renders as `1`, `0.5` as `0.5`),
in positional notation, with `NaN` and infinities rendered by their names. -/
def F32.display (x : F32) : String :=
  if x.isNaN then "NaN"
  else if x.isInf then (if x.sign then "-inf" else "inf")
  else if x.magNum = 0 then (if x.sign then "-0" else "0")
  else
    let N := x.magNum
    let bits31 := x.bits.val % 2147483648
    let t : Int :=
      if 2 ^ 149 ≤ N then (floorShift 10 200 (N / 2 ^ 149) 1 : Nat)
      else -(shiftToReach 10 200 N (2 ^ 149) : Nat)
    let p := shortestFrom bits31 N t 200 1
    (if x.sign then "-" else "") ++ renderDigits p.1 p.2

/-- `pub struct RGB`: three `u8` channels `r`, `g`, `b`. -/
structure RGB where
  r : U8
  g : U8
  b : U8
deriving DecidableEq

/-- `pub struct RGBA`: three `u8` channels and an `f32` alpha. -/
structure RGBA where
  r : U8
  g : U8
  b : U8
  a : F32
deriving DecidableEq

/-- `derive(PartialEq)` on `RGB`: field-by-field equality of the channels. -/
def RGB.beq (x y : RGB) : Bool :=
  decide (x.r = y.r) && decide (x.g = y.g) && decide (x.b = y.b)

/-- `derive(PartialEq)` on `RGBA`: field-by-field equality, using `f32`
equality (`F32.beq`) on the alpha field. -/
def RGBA.beq (x y : RGBA) : Bool :=
  decide (x.r = y.r) && decide (x.g = y.g) && decide (x.b = y.b) && F32.beq x.a y.a

/-- `impl fmt::Display for RGB`: `write!(f, "rgb(.., .., ..)")` with the three
channels printed in decimal. -/
def RGB.displayFmt (c : RGB) : String :=
  "rgb(" ++ Nat.repr c.r.val ++ ", " ++ Nat.repr c.g.val ++ ", " ++ Nat.repr c.b.val ++ ")"

/-- Rust's blanket `ToString` implementation for `RGB`, provided via its
`Display` instance. -/
def RGB.toString (c : RGB) : String := RGB.displayFmt c

/-- `RGB::to_css`: `self.to_string()`. -/
def RGB.to_css (c : RGB) : String := RGB.toString c

/-- `RGB::to_rgba`: same channels, alpha fixed to `1.0`. -/
def RGB.to_rgba (c : RGB) : RGBA := ⟨c.r, c.g, c.b, f32One⟩

/-- `impl fmt::Display for RGBA`: `write!(f, "rgba(.., .., .., ..)")` with
the channels in decimal and the alpha via `f32` `Display`. -/
def RGBA.displayFmt (c : RGBA) : String :=
  "rgba(" ++ Nat.repr c.r.val ++ ", " ++ Nat.repr c.g.val ++ ", " ++ Nat.repr c.b.val ++
    ", " ++ F32.display c.a ++ ")"

/-- Rust's blanket `ToString` implementation for `RGBA`, provided via its
`Display` instance. -/
def RGBA.toString (c : RGBA) : String := RGBA.displayFmt c

/-- `RGBA::to_css`: `self.to_string()`. -/
def RGBA.to_css (c : RGBA) : String := RGBA.toString c

/-- `RGBA::to_rgb`: keep the three channels, discard the alpha. -/
def RGBA.to_rgb (c : RGBA) : RGB := ⟨c.r, c.g, c.b⟩

/-- `pub fn rgb`: build an `RGB` from three `u8` values. -/
def rgb (red green blue : U8) : RGB := ⟨red, green, blue⟩

/-- `pub fn rgba`: build an `RGBA` from three `u8` values and an `f32` alpha. -/
def rgba (red green blue : U8) (alpha : F32) : RGBA := ⟨red, green, blue, alpha⟩

/-! ## Helper lemmas -/

/-- IEEE `f32` equality is symmetric. -/
theorem F32.beq_symm (x y : F32) : F32.beq x y = F32.beq y x := by
  unfold F32.beq
  cases hx : x.isNaN <;> cases hy : y.isNaN <;>
    cases hzx : x.isZero <;> cases hzy : y.isZero <;>
      simp [hx, hy, hzx, hzy, eq_comm]

/-- An `f32` compares equal to itself exactly when it is not NaN. -/
theorem F32.beq_refl_iff (x : F32) : F32.beq x x = true ↔ x.isNaN = false := by
  unfold F32.beq
  cases hx : x.isNaN <;> cases hz : x.isZero <;> simp [hx, hz]

/-! ## Claim theorems -/

/-- Claim C1: for every r, g, b in [0,255], `rgb(r,g,b).to_css()` returns
exactly `"rgb(R, G, B)"` with the decimal base-10 representations of the
three channels (here `Nat.repr`, the canonical decimal form with no leading
zeros), comma-space separated, no alpha component; in particular
`rgb(250,128,114)` renders as `"rgb(250, 128, 114)"`. -/
theorem rgb_render_format :
    (∀ r g b : U8, (rgb r g b).to_css =
      "rgb(" ++ Nat.repr r.val ++ ", " ++ Nat.repr g.val ++ ", " ++ Nat.repr b.val ++ ")") ∧
    (rgb 250 128 114).to_css = "rgb(250, 128, 114)" :=
  ⟨fun _ _ _ => rfl, by decide⟩

/-- Claim C2: for every r, g, b in [0,255] and every `f32` alpha,
`rgba(r,g,b,a).to_css()` returns exactly `"rgba(R, G, B, A)"` where A is the
minimal (shortest round-trip) decimal text form of the stored alpha
(`F32.display`, modelled from the spec); alpha `1.0` renders as `"1"`,
`0.5` renders as `"0.5"`, and `rgba(5,10,255,1.0).to_css()` is
`"rgba(5, 10, 255, 1)"`. -/
theorem rgba_render_format :
    (∀ (r g b : U8) (a : F32), (rgba r g b a).to_css =
      "rgba(" ++ Nat.repr r.val ++ ", " ++ Nat.repr g.val ++ ", " ++ Nat.repr b.val ++
        ", " ++ F32.display a ++ ")") ∧
    F32.display f32One = "1" ∧ F32.display f32Half = "0.5" ∧
    (rgba 5 10 255 f32One).to_css = "rgba(5, 10, 255, 1)" :=
  ⟨fun _ _ _ _ => rfl, by decide, by decide, by decide⟩

/-- Claim C3: for every `RGB` value c, the round trip
`c.to_rgba().to_rgb()` equals c, both as structural equality and under the
derived `PartialEq`. -/
theorem to_rgba_to_rgb_round_trip :
    (∀ c : RGB, c.to_rgba.to_rgb = c) ∧
    (∀ c : RGB, RGB.beq (c.to_rgba.to_rgb) c = true) := by
  refine ⟨fun c => ?_, fun c => ?_⟩
  · cases c; rfl
  · simp [RGB.beq, RGB.to_rgba, RGBA.to_rgb]

/-- Claim C4: `RGB::to_rgba` keeps the three channel values and installs an
alpha of exactly `1.0`; in particular `rgb(255,99,71).to_rgba()` equals
`rgba(255,99,71,1.0)` (structurally and under `PartialEq`). -/
theorem to_rgba_channels_and_alpha :
    (∀ c : RGB, c.to_rgba.r = c.r ∧ c.to_rgba.g = c.g ∧ c.to_rgba.b = c.b ∧
      c.to_rgba.a = f32One) ∧
    (rgb 255 99 71).to_rgba = rgba 255 99 71 f32One ∧
    RGBA.beq ((rgb 255 99 71).to_rgba) (rgba 255 99 71 f32One) = true :=
  ⟨fun _ => ⟨rfl, rfl, rfl, rfl⟩, rfl, by decide⟩

/-- Claim C5: `RGBA::to_rgb` returns an `RGB` whose fields are exactly the
input channels, and the alpha value (any `f32`, NaN and out-of-range values
included) has no influence on the result. -/
theorem to_rgb_discards_alpha :
    ∀ x : RGBA, x.to_rgb.r = x.r ∧ x.to_rgb.g = x.g ∧ x.to_rgb.b = x.b ∧
      ∀ a2 : F32, (RGBA.mk x.r x.g x.b a2).to_rgb = x.to_rgb :=
  fun _ => ⟨rfl, rfl, rfl, fun _ => rfl⟩

/-- Claim C6: the constructors `rgb` and `rgba` are pure passthroughs: every
field of the result equals the corresponding argument, for every alpha
value, with no validation. -/
theorem constructors_passthrough :
    ∀ (red green blue : U8) (alpha : F32),
      (rgb red green blue).r = red ∧ (rgb red green blue).g = green ∧
      (rgb red green blue).b = blue ∧
      (rgba red green blue alpha).r = red ∧ (rgba red green blue alpha).g = green ∧
      (rgba red green blue alpha).b = blue ∧ (rgba red green blue alpha).a = alpha :=
  fun _ _ _ _ => ⟨rfl, rfl, rfl, rfl, rfl, rfl, rfl⟩

/-- Claim C7 counterexample: equality on `RGBA` is not reflexive for every
possible alpha value — an `RGBA` with a NaN alpha does not equal itself
under the derived `PartialEq` (IEEE equality makes NaN unequal to NaN). -/
theorem rgba_beq_not_reflexive_at_nan :
    RGBA.beq (rgba 0 0 0 f32NaN) (rgba 0 0 0 f32NaN) = false := by decide

/-- Claim C7, amended: equality on both types is structural and field-exact
(`RGBA` uses exact IEEE float equality on alpha, no epsilon); it is
symmetric for both types; it is reflexive for every `RGB`, and an `RGBA`
equals itself exactly when its alpha is not NaN. -/
theorem beq_characterization :
    (∀ x y : RGB, RGB.beq x y = true ↔ x.r = y.r ∧ x.g = y.g ∧ x.b = y.b) ∧
    (∀ x y : RGBA, RGBA.beq x y = true ↔
      x.r = y.r ∧ x.g = y.g ∧ x.b = y.b ∧ F32.beq x.a y.a = true) ∧
    (∀ x y : RGB, RGB.beq x y = RGB.beq y x) ∧
    (∀ x y : RGBA, RGBA.beq x y = RGBA.beq y x) ∧
    (∀ x : RGB, RGB.beq x x = true) ∧
    (∀ x : RGBA, RGBA.beq x x = true ↔ x.a.isNaN = false) := by
  refine ⟨fun x y => ?_, fun x y => ?_, fun x y => ?_, fun x y => ?_, fun x => ?_, fun x => ?_⟩
  · simp [RGB.beq, and_assoc]
  · simp [RGBA.beq, and_assoc]
  · simp [RGB.beq, eq_comm]
  · unfold RGBA.beq
    rw [F32.beq_symm]
    simp [eq_comm]
  · simp [RGB.beq]
  · simp [RGBA.beq, F32.beq_refl_iff]

/-- Claim C8: every operation of the library is total and side-effect-free —
each is a pure function in this embedding, and for all inputs each returns
a value (a new color value or a string). -/
theorem operations_total :
    ∀ (red green blue : U8) (alpha : F32) (c : RGB) (x : RGBA),
      (∃ v : RGB, rgb red green blue = v) ∧ (∃ w : RGBA, rgba red green blue alpha = w) ∧
      (∃ w : RGBA, c.to_rgba = w) ∧ (∃ v : RGB, x.to_rgb = v) ∧
      (∃ s : String, c.to_css = s) ∧ (∃ s : String, x.to_css = s) :=
  fun _ _ _ _ _ _ => ⟨⟨_, rfl⟩, ⟨_, rfl⟩, ⟨_, rfl⟩, ⟨_, rfl⟩, ⟨_, rfl⟩, ⟨_, rfl⟩⟩

/-- Claim C9: the two rendering paths agree — `to_css` returns exactly the
string produced by the `Display` implementation (`to_string`), for both
`RGB` and `RGBA`. -/
theorem to_css_agrees_with_display :
    (∀ c : RGB, c.to_css = RGB.displayFmt c) ∧ (∀ c : RGB, c.to_css = RGB.toString c) ∧
    (∀ x : RGBA, x.to_css = RGBA.displayFmt x) ∧ (∀ x : RGBA, x.to_css = RGBA.toString x) :=
  ⟨fun _ => rfl, fun _ => rfl, fun _ => rfl, fun _ => rfl⟩

/-- Claim C10: the reverse round trip is lossy except at full opacity — for
every `RGBA` value x, `x.to_rgb().to_rgba()` equals x (under the derived
`PartialEq`) if and only if x's alpha equals `1.0` as a float; e.g. with
alpha `0.5` the composition yields a different value. -/
theorem to_rgb_to_rgba_round_trip_iff :
    (∀ x : RGBA, RGBA.beq (x.to_rgb.to_rgba) x = true ↔ F32.beq x.a f32One = true) ∧
    RGBA.beq (((rgba 250 128 114 f32Half).to_rgb).to_rgba) (rgba 250 128 114 f32Half) = false := by
  refine ⟨fun x => ?_, by decide⟩
  simp [RGBA.to_rgb, RGB.to_rgba, RGBA.beq]
  rw [F32.beq_symm]
